import Mathlib

/-!
Verification of the hybrid persistence and sync subsystem of the
zachapp backend.

The development shallowly embeds the Python modules `database_manager.py`,
`sync_manager.py`, `hybrid_user_manager.py`, `hybrid_session_manager.py`,
`hybrid_verification_manager.py` and `hybrid_password_reset_manager.py`.
JSON documents (one per entity type) are embedded as association lists
`List (String × α)` with Python-dict semantics: lookup finds the first
matching key, assignment replaces the first matching key in place or
appends, deletion removes the key.  Timestamps are `Nat` epoch seconds.
The password digest is a parameter `hash : String → String` (the spec
treats hashing as a pluggable one-way function).  Network outcomes of
individual primary-store writes are an oracle `ok : String → Bool`
keyed by the entry being pushed; reads from an available primary store
are deterministic.
-/

namespace ZachApp

/-! ## Association lists with Python-dict semantics -/

/-- First-match lookup, `d.get(k)` / `k in d`. -/
def alookup {α : Type} : List (String × α) → String → Option α
  | [], _ => none
  | (k', v) :: t, k => if k' = k then some v else alookup t k

/-- `d[k] = v`: replace the first binding of `k` in place, else append. -/
def aset {α : Type} : List (String × α) → String → α → List (String × α)
  | [], k, v => [(k, v)]
  | (k', v') :: t, k, v =>
      if k' = k then (k', v) :: t else (k', v') :: aset t k v

/-- `del d[k]`: drop every binding of `k` (a dict has at most one). -/
def aremove {α : Type} : List (String × α) → String → List (String × α)
  | [], _ => []
  | (k', v') :: t, k =>
      if k' = k then aremove t k else (k', v') :: aremove t k

/-! ## Data model

Records mirror the persisted JSON layouts (§6 of the design) and the
relational rows created by `database_manager.py`.  `UserRec.password`
holds the digest (the `password` field of `users.json`, the
`password_hash` column of the `users` table). -/

structure UserRec where
  username : String
  email : String
  password : String
  deriving DecidableEq, Repr

/-- One value of `sessions.json`: `{"token": str, "expiry": int}`. -/
structure SessionRec where
  token : String
  expiry : Nat
  deriving DecidableEq, Repr

/-- One value of `verification.json`:
`{"token": str, "expiry": int, "verified": bool, "email": str}`. -/
structure VerifRec where
  token : String
  expiry : Nat
  verified : Bool
  email : String
  deriving DecidableEq, Repr

/-- One value of `reset_tokens.json` (keyed by the token itself):
`{"username": str, "email": str, "expiry": int, "created": int}`. -/
structure ResetRec where
  username : String
  email : String
  expiry : Nat
  created : Nat
  deriving DecidableEq, Repr

/-- A row of the `sessions` table (unique key: `token`). -/
structure SessRow where
  username : String
  token : String
  expiry : Nat
  deriving DecidableEq, Repr

/-- A row of the `verification_tokens` table (unique key: `token`). -/
structure VerifRow where
  username : String
  email : String
  token : String
  expiry : Nat
  verified : Bool
  deriving DecidableEq, Repr

/-- A row of the `reset_tokens` table (unique key: `token`). -/
structure ResetRow where
  username : String
  email : String
  token : String
  expiry : Nat
  deriving DecidableEq, Repr

/-! ## `database_manager.py`: the fallback latch

`DatabaseManager` keeps two booleans, `is_connected` and
`fallback_to_json`.  `_test_connection` sets `fallback_to_json := true`
when the MySQL connector is missing, when either connection attempt
fails, or when a driver error is raised; its success path sets
`is_connected := true` and leaves `fallback_to_json` untouched.
`close_connection` and `is_database_available` touch neither flag.
Environment outcomes (connector importable, server/database connection
success, driver error, live handle, query success) are explicit boolean
parameters. -/

structure DBState where
  isConnected : Bool
  fallbackToJson : Bool
  deriving DecidableEq, Repr

/-- `DatabaseManager._test_connection` (database_manager.py:84-127). -/
def testConnection (mysqlAvailable serverOk dbOk errRaised : Bool)
    (s : DBState) : DBState :=
  if mysqlAvailable = false then { s with fallbackToJson := true }
  else if errRaised then { s with fallbackToJson := true, isConnected := s.isConnected }
  else if serverOk then
    if dbOk then { s with isConnected := true }
    else { s with fallbackToJson := true }
  else { s with fallbackToJson := true }

/-- `DatabaseManager.get_connection` (database_manager.py:242-249):
reuse a live handle, otherwise retest the connection. -/
def getConnection (alive mysqlAvailable serverOk dbOk errRaised : Bool)
    (s : DBState) : DBState :=
  if s.isConnected && alive then s
  else testConnection mysqlAvailable serverOk dbOk errRaised s

/-- `DatabaseManager.execute_query` (database_manager.py:251-278).
Returns `none` for every failure; `some true` stands for a truthy
result.  The `fallback_to_json` check comes first. -/
def executeQuery (alive mysqlAvailable serverOk dbOk errRaised querySucceeds : Bool)
    (s : DBState) : Option Bool × DBState :=
  if s.fallbackToJson then (none, s)
  else
    let s2 := getConnection alive mysqlAvailable serverOk dbOk errRaised s
    if s2.isConnected = false then (none, s2)
    else if querySucceeds then (some true, s2)
    else (none, s2)

/-- `DatabaseManager.is_database_available` (database_manager.py:286-288). -/
def isDatabaseAvailable (s : DBState) : Bool :=
  s.isConnected && !s.fallbackToJson

/-- One call into the `DatabaseManager`, over arbitrary environment
outcomes.  `close_connection` and `is_database_available` do not touch
`is_connected` or `fallback_to_json` and need no constructor. -/
inductive DBStep : DBState → DBState → Prop where
  | test (m so dbo e : Bool) (s : DBState) :
      DBStep s (testConnection m so dbo e s)
  | getConn (a m so dbo e : Bool) (s : DBState) :
      DBStep s (getConnection a m so dbo e s)
  | exec (a m so dbo e q : Bool) (s : DBState) :
      DBStep s (executeQuery a m so dbo e q s).2

/-! ## Hybrid system state

One record holds both stores, the sync ledger (`sync_tracking.json`) and
the `SyncManager` flags.  `dbAvailable` is the value
`is_database_available()` reports; by `fallback_latch` it is constant
inside any one call, and no manager operation changes it.  Reads from an
available primary store are deterministic; each primary-store write
during a sync pass succeeds iff the oracle `ok` holds at the entry's
key. -/

@[ext]
structure SysState where
  dbAvailable : Bool
  dbUsers : List (String × UserRec)
  dbSessions : List SessRow
  dbVerif : List VerifRow
  dbReset : List ResetRow
  jsonUsers : List (String × UserRec)
  jsonSessions : List (String × SessionRec)
  jsonVerif : List (String × VerifRec)
  jsonReset : List (String × ResetRec)
  syncedUsers : List (String × Nat)
  syncedSessions : List (String × Nat)
  syncedVerif : List (String × Nat)
  syncedReset : List (String × Nat)
  lastSync : Nat
  lastDbStatus : Bool
  syncInProgress : Bool
  deriving DecidableEq, Repr

/-- The default state: both stores empty, ledger empty, flags as set in
`SyncManager.__init__` (`last_db_status = False`, `sync_in_progress =
False`, `last_sync = 0`). -/
def emptySys : SysState where
  dbAvailable := false
  dbUsers := []
  dbSessions := []
  dbVerif := []
  dbReset := []
  jsonUsers := []
  jsonSessions := []
  jsonVerif := []
  jsonReset := []
  syncedUsers := []
  syncedSessions := []
  syncedVerif := []
  syncedReset := []
  lastSync := 0
  lastDbStatus := false
  syncInProgress := false

/-! ## `sync_manager.py`: one generic pass per entity type

Each `sync_*` method loads the JSON document, filters out entries whose
key is already in the ledger (`_get_unsynced_entries`), then for each
remaining entry: if the entry carries an expiry that has passed it is
marked synced without pushing; otherwise the entry is pushed and marked
synced only when the push returned a truthy result.  `sync_users` has no
expiry check.  A failed push is logged and skipped.  The method's own
return value is `True` unless reading the document raises, which the
embedding (a total map) cannot do. -/

/-- The shared loop of `sync_users` / `sync_sessions` /
`sync_verification_tokens` / `sync_reset_tokens` over one entity type:
`expired` is the per-record expiry test (constantly false for users),
`push` the primary-store upsert, `now` the pass timestamp used by
`_mark_as_synced`.  `passStep` is the loop body for one entry, `runPass`
filters the unsynced entries and folds the body over them. -/
def passStep {ρ δ : Type} (now : Nat) (ok : String → Bool)
    (expired : ρ → Bool) (push : δ → String → ρ → δ)
    (acc : List (String × Nat) × δ) (kv : String × ρ) :
    List (String × Nat) × δ :=
  if expired kv.2 then (aset acc.1 kv.1 now, acc.2)
  else if ok kv.1 then (aset acc.1 kv.1 now, push acc.2 kv.1 kv.2)
  else acc

def runPass {ρ δ : Type} (now : Nat) (ok : String → Bool)
    (expired : ρ → Bool) (push : δ → String → ρ → δ)
    (store : List (String × ρ)) (synced : List (String × Nat)) (db : δ) :
    List (String × Nat) × δ :=
  (store.filter (fun kv => (alookup synced kv.1).isNone)).foldl
    (passStep now ok expired push) (synced, db)

/-- `INSERT INTO users ... ON DUPLICATE KEY UPDATE email, password_hash`:
upsert keyed by the record's `username` field (the table's `email`
uniqueness is not modelled). -/
def pushUser (db : List (String × UserRec)) (_key : String) (u : UserRec) :
    List (String × UserRec) :=
  aset db u.username u

/-- `INSERT INTO sessions (username, token, expiry) ... ON DUPLICATE KEY
UPDATE expiry`: the unique key is `token`; a clash updates only the
expiry of the clashing row. -/
def upsertSessionRow (rows : List SessRow) (r : SessRow) : List SessRow :=
  if rows.any (fun x => x.token = r.token) then
    rows.map (fun x => if x.token = r.token then { x with expiry := r.expiry } else x)
  else rows ++ [r]

/-- `INSERT INTO verification_tokens ... ON DUPLICATE KEY UPDATE token,
expiry, verified`: keyed by `token`; a clash updates expiry and the
verified flag, not username or email. -/
def upsertVerifRow (rows : List VerifRow) (r : VerifRow) : List VerifRow :=
  if rows.any (fun x => x.token = r.token) then
    rows.map (fun x =>
      if x.token = r.token then { x with expiry := r.expiry, verified := r.verified } else x)
  else rows ++ [r]

/-- `INSERT INTO reset_tokens ... ON DUPLICATE KEY UPDATE token, expiry`:
keyed by `token`; a clash updates only the expiry. -/
def upsertResetRow (rows : List ResetRow) (r : ResetRow) : List ResetRow :=
  if rows.any (fun x => x.token = r.token) then
    rows.map (fun x => if x.token = r.token then { x with expiry := r.expiry } else x)
  else rows ++ [r]

/-- `SyncManager.sync_users` (sync_manager.py:158-205). -/
def syncUsers (now : Nat) (ok : String → Bool) (s : SysState) : SysState :=
  let r := runPass now ok (fun _ => false) pushUser s.jsonUsers s.syncedUsers s.dbUsers
  { s with syncedUsers := r.1, dbUsers := r.2 }

/-- `SyncManager.sync_sessions` (sync_manager.py:207-260); a session
whose `expiry <= now` is marked synced without pushing. -/
def syncSessions (now : Nat) (ok : String → Bool) (s : SysState) : SysState :=
  let r := runPass now ok (fun sd => sd.expiry ≤ now)
    (fun db k sd => upsertSessionRow db ⟨k, sd.token, sd.expiry⟩)
    s.jsonSessions s.syncedSessions s.dbSessions
  { s with syncedSessions := r.1, dbSessions := r.2 }

/-- `SyncManager.sync_verification_tokens` (sync_manager.py:262-318). -/
def syncVerifTokens (now : Nat) (ok : String → Bool) (s : SysState) : SysState :=
  let r := runPass now ok (fun td => td.expiry ≤ now)
    (fun db k td => upsertVerifRow db ⟨k, td.email, td.token, td.expiry, td.verified⟩)
    s.jsonVerif s.syncedVerif s.dbVerif
  { s with syncedVerif := r.1, dbVerif := r.2 }

/-- `SyncManager.sync_reset_tokens` (sync_manager.py:320-373). -/
def syncResetTokens (now : Nat) (ok : String → Bool) (s : SysState) : SysState :=
  let r := runPass now ok (fun td => td.expiry ≤ now)
    (fun db k td => upsertResetRow db ⟨td.username, td.email, k, td.expiry⟩)
    s.jsonReset s.syncedReset s.dbReset
  { s with syncedReset := r.1, dbReset := r.2 }

/-- The body of a full pass: the four entity syncs in source order. -/
def syncAllCore (now : Nat) (ok : String → Bool) (s : SysState) : SysState :=
  syncResetTokens now ok (syncVerifTokens now ok
    (syncSessions now ok (syncUsers now ok s)))

/-- `SyncManager.sync_all_data` (sync_manager.py:109-156): skip when a
pass is already running, fail when the database is unavailable, else run
the four entity passes, stamp `last_sync` and report success.  The four
passes return `False` only when reading a JSON document raises, which
the embedding cannot do, so the combined result is `true`. -/
def syncAllData (now : Nat) (ok : String → Bool) (s : SysState) : Bool × SysState :=
  if s.syncInProgress then (true, s)
  else if s.dbAvailable = false then (false, s)
  else (true, { syncAllCore now ok s with lastSync := now, syncInProgress := false })

/-- `SyncManager._should_periodic_sync` (sync_manager.py:102-107). -/
def shouldPeriodicSync (now : Nat) (s : SysState) : Bool :=
  decide (now - s.lastSync > 300)

/-- `SyncManager.check_and_sync` (sync_manager.py:85-100).  Both sync
branches return without executing the trailing
`last_db_status = current_db_status` assignment, exactly as the source
does. -/
def checkAndSync (now : Nat) (ok : String → Bool) (s : SysState) : Bool × SysState :=
  let current := s.dbAvailable
  if current && !s.lastDbStatus then syncAllData now ok s
  else if current && shouldPeriodicSync now s then syncAllData now ok s
  else (true, { s with lastDbStatus := current })

/-! ## `hybrid_user_manager.py` -/

/-- ASCII case folding, standing in for Python `str.lower()` and SQL
`LOWER()` (usernames are ASCII).  Defined on the character list so that
it evaluates inside the kernel. -/
def lowerChar (c : Char) : Char :=
  if 65 ≤ c.toNat ∧ c.toNat ≤ 90 then Char.ofNat (c.toNat + 32) else c

/-- Case folding of a whole string. -/
def lowerStr (s : String) : String :=
  ⟨s.data.map lowerChar⟩

/-- `HybridUserManager.get_user` (hybrid_user_manager.py:74-88): try the
database first; a hit wins, otherwise fall back to `users.json`. -/
def get_user (s : SysState) (username : String) : Option UserRec :=
  if s.dbAvailable then
    match alookup s.dbUsers username with
    | some u => some u
    | none => alookup s.jsonUsers username
  else alookup s.jsonUsers username

/-- `HybridUserManager.get_user_case_insensitive`
(hybrid_user_manager.py:109-133): `LOWER(username) = LOWER(%s)` against
the database, else a case-folded scan of `users.json`; either way the
stored casing is returned. -/
def get_user_case_insensitive (s : SysState) (username : String) : Option UserRec :=
  if s.dbAvailable then
    match s.dbUsers.find? (fun kv => lowerStr kv.2.username = lowerStr username) with
    | some kv => some kv.2
    | none =>
        (s.jsonUsers.find? (fun kv => lowerStr kv.1 = lowerStr username)).map Prod.snd
  else
    (s.jsonUsers.find? (fun kv => lowerStr kv.1 = lowerStr username)).map Prod.snd

/-- `HybridUserManager.validate_user` (hybrid_user_manager.py:143-150). -/
def validate_user (hash : String → String) (s : SysState)
    (username password : String) : Bool :=
  match get_user s username with
  | none => false
  | some u => u.password = hash password

/-- `HybridUserManager.validate_user_case_insensitive`
(hybrid_user_manager.py:152-165): returns `(is_valid, actual_username)`;
`actual_username` is the stored casing when the password matched and
`None` otherwise. -/
def validate_user_case_insensitive (hash : String → String) (s : SysState)
    (username password : String) : Bool × Option String :=
  match get_user_case_insensitive s username with
  | none => (false, none)
  | some u =>
      if u.password = hash password then (true, some u.username)
      else (false, none)

/-- `HybridUserManager.save_user` (hybrid_user_manager.py:43-72): digest
the password, `check_and_sync()`, try the database (`dbOk` is the write
outcome), else write `users.json` and `check_and_sync()` again; always
returns true. -/
def save_user (hash : String → String) (now : Nat) (ok : String → Bool)
    (dbOk : Bool) (s : SysState) (username email password : String) :
    Bool × SysState :=
  let digest := hash password
  let s1 := (checkAndSync now ok s).2
  if s1.dbAvailable && dbOk then
    (true, { s1 with dbUsers := aset s1.dbUsers username ⟨username, email, digest⟩ })
  else
    let s2 := { s1 with jsonUsers := aset s1.jsonUsers username ⟨username, email, digest⟩ }
    (true, (checkAndSync now ok s2).2)

/-- `HybridUserManager.update_user_password`
(hybrid_user_manager.py:186-207).  On the database path the `UPDATE`
returns a truthy result even when no row matched (`lastrowid` is 0 and
`execute_query` then returns `True`), so the database branch always
reports success when the database is available. -/
def update_user_password (hash : String → String) (s : SysState)
    (username newPassword : String) : Bool × SysState :=
  let digest := hash newPassword
  if s.dbAvailable then
    let db := s.dbUsers.map (fun kv =>
      if kv.2.username = username then (kv.1, { kv.2 with password := digest }) else kv)
    (true, { s with dbUsers := db })
  else
    match alookup s.jsonUsers username with
    | some u =>
        (true, { s with jsonUsers := aset s.jsonUsers username { u with password := digest } })
    | none => (false, s)

/-! ## `hybrid_session_manager.py` -/

/-- `get_session_from_db` (database_manager.py:359-370): the first row
with matching username, matching token and `expiry > NOW()`. -/
def getSessionFromDb (now : Nat) (rows : List SessRow) (username token : String) :
    Option SessRow :=
  rows.find? (fun r => decide (r.username = username ∧ r.token = token ∧ now < r.expiry))

/-- `HybridSessionManager.validate_session`
(hybrid_session_manager.py:75-112): on a database hit, rewrite the
expiry to `now + 3600` via `save_session_to_db`; on a JSON hit, rewrite
the stored expiry in `sessions.json`; a JSON entry that exists but fails
the token or expiry check is deleted. -/
def validate_session (now : Nat) (s : SysState) (username token : String) :
    Bool × SysState :=
  if s.dbAvailable then
    match getSessionFromDb now s.dbSessions username token with
    | some _ =>
        (true, { s with dbSessions :=
          upsertSessionRow s.dbSessions ⟨username, token, now + 3600⟩ })
    | none => (false, s)
  else
    match alookup s.jsonSessions username with
    | some sd =>
        if sd.token = token ∧ now < sd.expiry then
          let js := aset s.jsonSessions username ⟨sd.token, now + 3600⟩
          (true, { s with jsonSessions := js })
        else
          (false, { s with jsonSessions := aremove s.jsonSessions username })
    | none => (false, s)

/-- Rewrite the expiry of every `sessions` row carrying `tk` to `e` —
the effect of `upsertSessionRow` when a row with that token exists. -/
def bumpSessions (rows : List SessRow) (tk : String) (e : Nat) : List SessRow :=
  rows.map (fun x => if x.token = tk then { x with expiry := e } else x)

/-- The expiry currently stored for `(username, token)` in whichever
store the manager would answer from: the first matching `sessions` row
when the database is available, else the `sessions.json` entry. -/
def storedSessionExpiry (s : SysState) (username token : String) : Option Nat :=
  if s.dbAvailable then
    (s.dbSessions.find? (fun r => decide (r.username = username ∧ r.token = token))).map
      (fun r => r.expiry)
  else
    match alookup s.jsonSessions username with
    | some sd => if sd.token = token then some sd.expiry else none
    | none => none

/-! ## `hybrid_verification_manager.py` -/

/-- `get_verification_token_from_db` (database_manager.py:406-417): the
first row with matching token and `expiry > NOW()`; the `verified` flag
is not part of the query. -/
def getVerifTokenFromDb (now : Nat) (rows : List VerifRow) (token : String) :
    Option VerifRow :=
  rows.find? (fun r => decide (r.token = token ∧ now < r.expiry))

/-- `mark_verification_token_verified` (database_manager.py:419-426). -/
def markVerifiedDb (rows : List VerifRow) (token : String) : List VerifRow :=
  rows.map (fun r => if r.token = token then { r with verified := true } else r)

/-- `HybridVerificationManager.verify_email`
(hybrid_verification_manager.py:85-120).  Database path: look the row up
by token, require the username to match, mark verified — the `verified`
flag is never read.  JSON path: require matching token, unexpired record
and `not verified`; an already-verified JSON record therefore fails. -/
def verify_email (now : Nat) (s : SysState) (username token : String) :
    Bool × SysState :=
  if s.dbAvailable then
    match getVerifTokenFromDb now s.dbVerif token with
    | some row =>
        if row.username = username then
          (true, { s with dbVerif := markVerifiedDb s.dbVerif token })
        else (false, s)
    | none => (false, s)
  else
    match alookup s.jsonVerif username with
    | some td =>
        if td.token = token ∧ now < td.expiry ∧ td.verified = false then
          let jv := aset s.jsonVerif username { td with verified := true }
          (true, { s with jsonVerif := jv })
        else (false, s)
    | none => (false, s)

/-! ## `hybrid_password_reset_manager.py` -/

/-- What `validate_reset_token` returns on success. -/
structure ResetInfo where
  username : String
  email : String
  expiry : Nat
  deriving DecidableEq, Repr

/-- `get_reset_token_from_db` (database_manager.py:458-469): the first
row with matching token and `expiry > NOW()`. -/
def getResetTokenFromDb (now : Nat) (rows : List ResetRow) (token : String) :
    Option ResetRow :=
  rows.find? (fun r => decide (r.token = token ∧ now < r.expiry))

/-- `HybridPasswordResetManager.validate_reset_token`
(hybrid_password_reset_manager.py:100-137).  The database path never
falls back to JSON.  On the JSON path an expired entry is deleted from
`reset_tokens.json` as a side effect of the validation call. -/
def validate_reset_token (now : Nat) (s : SysState) (token : String) :
    Option ResetInfo × SysState :=
  if s.dbAvailable then
    match getResetTokenFromDb now s.dbReset token with
    | some row => (some ⟨row.username, row.email, row.expiry⟩, s)
    | none => (none, s)
  else
    match alookup s.jsonReset token with
    | some td =>
        if now < td.expiry then (some ⟨td.username, td.email, td.expiry⟩, s)
        else (none, { s with jsonReset := aremove s.jsonReset token })
    | none => (none, s)

/-- `HybridPasswordResetManager._delete_reset_token`
(hybrid_password_reset_manager.py:162-178): database `DELETE` when
available (always reported successful), else remove from
`reset_tokens.json`. -/
def deleteResetToken (s : SysState) (token : String) : SysState :=
  if s.dbAvailable then
    { s with dbReset := s.dbReset.filter (fun r => decide (r.token ≠ token)) }
  else if (alookup s.jsonReset token).isSome then
    { s with jsonReset := aremove s.jsonReset token }
  else s

/-- `HybridPasswordResetManager.reset_password`
(hybrid_password_reset_manager.py:139-160): validate the token, update
the user's password through the user manager, and delete the token only
when the update reported success. -/
def reset_password (hash : String → String) (now : Nat) (s : SysState)
    (token newPassword : String) : Bool × SysState :=
  match validate_reset_token now s token with
  | (none, s') => (false, s')
  | (some info, s') =>
      let r := update_user_password hash s' info.username newPassword
      if r.1 then (true, deleteResetToken r.2 token)
      else (false, r.2)

/-! ## Concrete states used to instantiate the theorems -/

/-- Primary holds `alice` with digest `h1`; `users.json` holds a stale
record with digest `h2`. -/
def precedenceState : SysState :=
  { emptySys with
    dbAvailable := true
    dbUsers := [("alice", ⟨"alice", "a@x", "h1"⟩)]
    jsonUsers := [("alice", ⟨"alice", "a@x", "h2"⟩)] }

/-- No user at all (offline, empty stores). -/
def ciUnknownState : SysState := emptySys

/-- Offline store holding `Alice` whose digest is `H:pw1`. -/
def ciWrongPwState : SysState :=
  { emptySys with jsonUsers := [("Alice", ⟨"Alice", "a@x", "H:pw1"⟩)] }

/-- Offline verification store: `carol` already verified, token `tok`,
expiry 1000. -/
def verifiedJsonState : SysState :=
  { emptySys with jsonVerif := [("carol", ⟨"tok", 1000, true, "c@x"⟩)] }

/-- Online verification store: `carol`'s row already verified. -/
def verifiedDbState : SysState :=
  { emptySys with
    dbAvailable := true
    dbVerif := [⟨"carol", "c@x", "tok", 1000, true⟩] }

/-- Offline reset store holding a token that expired at 50. -/
def expiredResetState : SysState :=
  { emptySys with jsonReset := [("tok", ⟨"dave", "d@x", 50, 0⟩)] }

/-- Offline stores holding `dave` and a live reset token for him. -/
def resetDaveState : SysState :=
  { emptySys with
    jsonUsers := [("dave", ⟨"dave", "d@x", "h0"⟩)]
    jsonReset := [("tok", ⟨"dave", "d@x", 100, 0⟩)] }

/-- Offline session store: one session for `u`, expiring at 50. -/
def sessionState : SysState :=
  { emptySys with jsonSessions := [("u", ⟨"tk", 50⟩)] }

/-- Online, one unsynced user `bob` in `users.json`. -/
def unsyncedBobState : SysState :=
  { emptySys with
    dbAvailable := true
    jsonUsers := [("bob", ⟨"bob", "b@x", "hb"⟩)] }

/-- Online; an unsynced user `bob` and an unsynced live session `sess`
in the secondary store. -/
def mixedSyncState : SysState :=
  { emptySys with
    dbAvailable := true
    jsonUsers := [("bob", ⟨"bob", "b@x", "hb"⟩)]
    jsonSessions := [("sess", ⟨"tks", 100⟩)] }

/-! ## Association-list lemmas -/

@[simp] theorem alookup_nil {α : Type} (k : String) :
    alookup ([] : List (String × α)) k = none := rfl

@[simp] theorem alookup_cons {α : Type} (k' k : String) (v : α) (t : List (String × α)) :
    alookup ((k', v) :: t) k = if k' = k then some v else alookup t k := rfl

@[simp] theorem aset_nil {α : Type} (k : String) (v : α) :
    aset ([] : List (String × α)) k v = [(k, v)] := rfl

@[simp] theorem aset_cons {α : Type} (k' k : String) (v' v : α) (t : List (String × α)) :
    aset ((k', v') :: t) k v =
      if k' = k then (k', v) :: t else (k', v') :: aset t k v := rfl

theorem alookup_aset_self {α : Type} (l : List (String × α)) (k : String) (v : α) :
    alookup (aset l k v) k = some v := by
  induction l with
  | nil => simp [alookup]
  | cons h t ih =>
    obtain ⟨k', v'⟩ := h
    by_cases hk : k' = k <;> simp [aset, alookup, hk, ih]

theorem alookup_aset_ne {α : Type} (l : List (String × α)) (k' k : String) (v : α)
    (h : k' ≠ k) : alookup (aset l k' v) k = alookup l k := by
  induction l with
  | nil => simp [alookup, h]
  | cons hd t ih =>
    obtain ⟨k₀, v₀⟩ := hd
    by_cases hk : k₀ = k'
    · subst hk; simp [aset, alookup, h]
    · simp [aset, hk, alookup, ih]

theorem mem_aset {α : Type} {l : List (String × α)} {k : String} {v : α} {p : String × α}
    (h : p ∈ aset l k v) : p ∈ l ∨ p = (k, v) := by
  induction l with
  | nil => simp [aset] at h; simp [h]
  | cons hd t ih =>
    obtain ⟨k₀, v₀⟩ := hd
    by_cases hk : k₀ = k
    · subst hk
      simp [aset] at h
      rcases h with h | h
      · right; simp [h]
      · left; simp [h]
    · simp [aset, hk] at h
      rcases h with h | h
      · left; simp [h]
      · rcases ih h with h' | h'
        · left; simp [h']
        · right; exact h'

theorem mem_keys_aset {α : Type} {l : List (String × α)} {k k'' : String} {v : α}
    (h : k'' ∈ (aset l k v).map Prod.fst) : k'' ∈ l.map Prod.fst ∨ k'' = k := by
  simp only [List.mem_map] at h
  obtain ⟨p, hp, hfst⟩ := h
  rcases mem_aset hp with h' | h'
  · left; exact List.mem_map.mpr ⟨p, h', hfst⟩
  · right; rw [h'] at hfst; exact hfst.symm ▸ rfl

theorem nodup_keys_aset {α : Type} {l : List (String × α)} {k : String} {v : α}
    (h : (l.map Prod.fst).Nodup) : ((aset l k v).map Prod.fst).Nodup := by
  induction l with
  | nil => simp [aset]
  | cons hd t ih =>
    obtain ⟨k₀, v₀⟩ := hd
    simp only [List.map_cons, List.nodup_cons] at h
    by_cases hk : k₀ = k
    · subst hk
      simpa [aset] using h
    · simp only [aset, if_neg hk, List.map_cons, List.nodup_cons]
      refine ⟨?_, ih h.2⟩
      intro hmem
      rcases mem_keys_aset hmem with h' | h'
      · exact h.1 h'
      · exact hk h'

theorem alookup_mem {α : Type} {l : List (String × α)} {k : String} {v : α}
    (h : alookup l k = some v) : (k, v) ∈ l := by
  induction l with
  | nil => simp [alookup] at h
  | cons hd t ih =>
    obtain ⟨k₀, v₀⟩ := hd
    by_cases hk : k₀ = k
    · subst hk
      simp [alookup] at h
      simp [h]
    · simp [alookup, hk] at h
      exact List.mem_cons_of_mem _ (ih h)

theorem alookup_isSome_of_mem {α : Type} {l : List (String × α)} {k : String} {v : α}
    (h : (k, v) ∈ l) : (alookup l k).isSome := by
  induction l with
  | nil => simp at h
  | cons hd t ih =>
    obtain ⟨k₀, v₀⟩ := hd
    rcases List.mem_cons.mp h with h' | h'
    · obtain ⟨h1, h2⟩ := Prod.mk.injEq .. ▸ h'
      simp [alookup, Prod.ext_iff] at h' ⊢
      simp [h'.1]
    · by_cases hk : k₀ = k <;> simp [alookup, hk, ih h']

theorem alookup_aremove_self {α : Type} (l : List (String × α)) (k : String) :
    alookup (aremove l k) k = none := by
  induction l with
  | nil => simp [aremove]
  | cons hd t ih =>
    obtain ⟨k₀, v₀⟩ := hd
    by_cases hk : k₀ = k <;> simp [aremove, hk, alookup, ih]

theorem alookup_aremove_ne {α : Type} (l : List (String × α)) (k' k : String)
    (h : k' ≠ k) : alookup (aremove l k') k = alookup l k := by
  induction l with
  | nil => simp [aremove]
  | cons hd t ih =>
    obtain ⟨k₀, v₀⟩ := hd
    by_cases hk : k₀ = k'
    · subst hk; simp [aremove, alookup, h, ih]
    · simp [aremove, hk, alookup, ih]

/-! ## The fallback latch (C2) -/

theorem testConnection_preserves_fallback (m so dbo e : Bool) (s : DBState)
    (h : s.fallbackToJson = true) :
    (testConnection m so dbo e s).fallbackToJson = true := by
  unfold testConnection
  split <;> [skip; split] <;> simp_all
  split <;> [split; skip] <;> simp_all

theorem getConnection_preserves_fallback (a m so dbo e : Bool) (s : DBState)
    (h : s.fallbackToJson = true) :
    (getConnection a m so dbo e s).fallbackToJson = true := by
  unfold getConnection
  split
  · exact h
  · exact testConnection_preserves_fallback m so dbo e s h

theorem executeQuery_preserves_fallback (a m so dbo e q : Bool) (s : DBState)
    (h : s.fallbackToJson = true) :
    (executeQuery a m so dbo e q s).2.fallbackToJson = true := by
  unfold executeQuery
  simp [h]

theorem dbStep_preserves_fallback {s s' : DBState} (hstep : DBStep s s')
    (h : s.fallbackToJson = true) : s'.fallbackToJson = true := by
  cases hstep with
  | test m so dbo e => exact testConnection_preserves_fallback m so dbo e s h
  | getConn a m so dbo e => exact getConnection_preserves_fallback a m so dbo e s h
  | exec a m so dbo e q => exact executeQuery_preserves_fallback a m so dbo e q s h

/-- C2: once `fallback_to_json` is set, any sequence of further
`DatabaseManager` calls leaves it set; under it the manager reports the
database unavailable and every query returns `None`. -/
theorem fallback_latch {s s' : DBState}
    (hreach : Relation.ReflTransGen DBStep s s')
    (h : s.fallbackToJson = true) :
    s'.fallbackToJson = true ∧ isDatabaseAvailable s' = false ∧
      ∀ a m so dbo e q, (executeQuery a m so dbo e q s').1 = none := by
  have hlatch : s'.fallbackToJson = true := by
    induction hreach with
    | refl => exact h
    | tail _ hstep ih => exact dbStep_preserves_fallback hstep ih
  refine ⟨hlatch, ?_, ?_⟩
  · simp [isDatabaseAvailable, hlatch]
  · intro a m so dbo e q
    simp [executeQuery, hlatch]

/-- Witness for C2 at the concrete latched state
`⟨isConnected := true, fallbackToJson := true⟩` after a reconnect step. -/
theorem fallback_latch_witness :
    (testConnection true true true false ⟨true, true⟩).fallbackToJson = true ∧
      isDatabaseAvailable (testConnection true true true false ⟨true, true⟩) = false ∧
      (executeQuery true true true true false true
        (testConnection true true true false ⟨true, true⟩)).1 = none := by
  have h := @fallback_latch ⟨true, true⟩ (testConnection true true true false ⟨true, true⟩)
    (Relation.ReflTransGen.single (DBStep.test true true true false ⟨true, true⟩)) rfl
  exact ⟨h.1, h.2.1, h.2.2 true true true true false true⟩


/-! ## Sync-pass lemmas

A pass marks every unsynced entry it handled (pushed or skipped as
expired) with the pass timestamp, never removes a ledger entry, and is a
no-op on entries it can neither expire nor push. -/

section PassLemmas

variable {ρ δ : Type}

theorem passFold_mark_stays (now : Nat) (ok : String → Bool) (expired : ρ → Bool)
    (push : δ → String → ρ → δ) (l : List (String × ρ)) (k : String) :
    ∀ acc : List (String × Nat) × δ, alookup acc.1 k = some now →
      alookup (l.foldl (passStep now ok expired push) acc).1 k = some now := by
  induction l with
  | nil => intro acc h; simpa using h
  | cons hd t ih =>
    intro acc h
    simp only [List.foldl_cons]
    apply ih
    unfold passStep
    by_cases h1 : expired hd.2
    · by_cases hk : hd.1 = k
      · subst hk; simp [h1, alookup_aset_self]
      · simp [h1, alookup_aset_ne _ _ _ _ hk, h]
    · by_cases h2 : ok hd.1
      · by_cases hk : hd.1 = k
        · subst hk; simp [h1, h2, alookup_aset_self]
        · simp [h1, h2, alookup_aset_ne _ _ _ _ hk, h]
      · simp [h1, h2, h]

theorem passFold_marks (now : Nat) (ok : String → Bool) (expired : ρ → Bool)
    (push : δ → String → ρ → δ) (l : List (String × ρ)) (k : String) (r : ρ)
    (hcond : expired r = true ∨ ok k = true) :
    ∀ acc : List (String × Nat) × δ, (k, r) ∈ l →
      alookup (l.foldl (passStep now ok expired push) acc).1 k = some now := by
  induction l with
  | nil => intro acc hmem; cases hmem
  | cons hd t ih =>
    intro acc hmem
    rcases List.mem_cons.mp hmem with heq | hmem'
    · subst heq
      simp only [List.foldl_cons]
      apply passFold_mark_stays
      unfold passStep
      rcases hcond with hc | hc
      · simp [hc, alookup_aset_self]
      · by_cases h1 : expired r
        · simp [h1, alookup_aset_self]
        · simp [h1, hc, alookup_aset_self]
    · simp only [List.foldl_cons]
      exact ih _ hmem'

theorem passFold_isSome (now : Nat) (ok : String → Bool) (expired : ρ → Bool)
    (push : δ → String → ρ → δ) (l : List (String × ρ)) (k : String) :
    ∀ acc : List (String × Nat) × δ, (alookup acc.1 k).isSome →
      (alookup (l.foldl (passStep now ok expired push) acc).1 k).isSome := by
  induction l with
  | nil => intro acc h; simpa using h
  | cons hd t ih =>
    intro acc h
    simp only [List.foldl_cons]
    apply ih
    unfold passStep
    by_cases h1 : expired hd.2
    · by_cases hk : hd.1 = k
      · subst hk; simp [h1, alookup_aset_self]
      · simp [h1, alookup_aset_ne _ _ _ _ hk, h]
    · by_cases h2 : ok hd.1
      · by_cases hk : hd.1 = k
        · subst hk; simp [h1, h2, alookup_aset_self]
        · simp [h1, h2, alookup_aset_ne _ _ _ _ hk, h]
      · simp [h1, h2, h]

theorem passFold_untouched (now : Nat) (ok : String → Bool) (expired : ρ → Bool)
    (push : δ → String → ρ → δ) (l : List (String × ρ)) (k : String)
    (hok : ok k = false) (hexp : ∀ r, (k, r) ∈ l → expired r = false) :
    ∀ acc : List (String × Nat) × δ,
      alookup (l.foldl (passStep now ok expired push) acc).1 k = alookup acc.1 k := by
  induction l with
  | nil => intro acc; rfl
  | cons hd t ih =>
    intro acc
    simp only [List.foldl_cons]
    rw [ih (fun r hr => hexp r (List.mem_cons_of_mem _ hr))]
    unfold passStep
    by_cases hk : hd.1 = k
    · have hd_eta : hd = (k, hd.2) := by rw [← hk]
      have h1 : expired hd.2 = false := hexp hd.2 (hd_eta ▸ List.mem_cons_self _ _)
      simp [h1, hk ▸ hok]
    · by_cases h1 : expired hd.2
      · simp [h1, alookup_aset_ne _ _ _ _ hk]
      · by_cases h2 : ok hd.1
        · simp [h1, h2, alookup_aset_ne _ _ _ _ hk]
        · simp [h1, h2]

theorem passFold_identity (now : Nat) (ok : String → Bool) (expired : ρ → Bool)
    (push : δ → String → ρ → δ) (l : List (String × ρ))
    (h : ∀ kv ∈ l, expired kv.2 = false ∧ ok kv.1 = false) :
    ∀ acc : List (String × Nat) × δ,
      l.foldl (passStep now ok expired push) acc = acc := by
  induction l with
  | nil => intro acc; rfl
  | cons hd t ih =>
    intro acc
    have hh := h hd (List.mem_cons_self _ _)
    simp only [List.foldl_cons]
    have hstep : passStep now ok expired push acc hd = acc := by
      unfold passStep; simp [hh.1, hh.2]
    rw [hstep]
    exact ih (fun kv hkv => h kv (List.mem_cons_of_mem _ hkv)) acc

theorem runPass_mark (now : Nat) (ok : String → Bool) (expired : ρ → Bool)
    (push : δ → String → ρ → δ) (store : List (String × ρ))
    (synced : List (String × Nat)) (db : δ) (k : String) (r : ρ)
    (hmem : (k, r) ∈ store) (hunsynced : alookup synced k = none)
    (hcond : expired r = true ∨ ok k = true) :
    alookup (runPass now ok expired push store synced db).1 k = some now := by
  unfold runPass
  apply passFold_marks now ok expired push _ k r hcond
  exact List.mem_filter.mpr ⟨hmem, by simp [hunsynced]⟩

theorem runPass_isSome (now : Nat) (ok : String → Bool) (expired : ρ → Bool)
    (push : δ → String → ρ → δ) (store : List (String × ρ))
    (synced : List (String × Nat)) (db : δ) (k : String)
    (h : (alookup synced k).isSome) :
    (alookup (runPass now ok expired push store synced db).1 k).isSome := by
  unfold runPass
  exact passFold_isSome now ok expired push _ k (synced, db) h

theorem runPass_untouched (now : Nat) (ok : String → Bool) (expired : ρ → Bool)
    (push : δ → String → ρ → δ) (store : List (String × ρ))
    (synced : List (String × Nat)) (db : δ) (k : String)
    (hok : ok k = false) (hexp : ∀ r, (k, r) ∈ store → expired r = false) :
    alookup (runPass now ok expired push store synced db).1 k = alookup synced k := by
  unfold runPass
  exact passFold_untouched now ok expired push _ k hok
    (fun r hr => hexp r (List.mem_filter.mp hr).1) (synced, db)

/-- A pass re-run on its own output (same store, same timestamp, same
push outcomes) changes nothing: every entry it left unsynced was neither
expired nor pushable, and stays that way. -/
theorem runPass_idem (now : Nat) (ok : String → Bool) (expired : ρ → Bool)
    (push : δ → String → ρ → δ) (store : List (String × ρ))
    (synced : List (String × Nat)) (db : δ) :
    runPass now ok expired push store
        (runPass now ok expired push store synced db).1
        (runPass now ok expired push store synced db).2 =
      runPass now ok expired push store synced db := by
  have hid : ∀ kv ∈ store.filter
      (fun kv => (alookup (runPass now ok expired push store synced db).1 kv.1).isNone),
      expired kv.2 = false ∧ ok kv.1 = false := by
    intro kv hkv
    obtain ⟨hmem, hpred⟩ := List.mem_filter.mp hkv
    have hnone : alookup (runPass now ok expired push store synced db).1 kv.1 = none :=
      Option.isNone_iff_eq_none.mp (by simpa using hpred)
    have hsynced : alookup synced kv.1 = none := by
      by_contra hc
      have hs : (alookup synced kv.1).isSome := Option.ne_none_iff_isSome.mp hc
      have := runPass_isSome now ok expired push store synced db kv.1 hs
      rw [hnone] at this
      simp at this
    constructor
    · by_contra hc
      have hmark := runPass_mark now ok expired push store synced db kv.1 kv.2
        (by simpa using hmem) hsynced (Or.inl (by simpa using hc))
      rw [hnone] at hmark
      cases hmark
    · by_contra hc
      have hmark := runPass_mark now ok expired push store synced db kv.1 kv.2
        (by simpa using hmem) hsynced (Or.inr (by simpa using hc))
      rw [hnone] at hmark
      cases hmark
  have h2 : runPass now ok expired push store
      (runPass now ok expired push store synced db).1
      (runPass now ok expired push store synced db).2 =
      (store.filter
        (fun kv => (alookup (runPass now ok expired push store synced db).1 kv.1).isNone)).foldl
        (passStep now ok expired push)
        ((runPass now ok expired push store synced db).1,
         (runPass now ok expired push store synced db).2) := rfl
  rw [h2, passFold_identity now ok expired push _ hid]

end PassLemmas

theorem usersFold_db_preserve (now : Nat) (ok : String → Bool)
    (l : List (String × UserRec)) (k : String)
    (h : ∀ kv ∈ l, kv.2.username ≠ k) :
    ∀ acc : List (String × Nat) × List (String × UserRec),
      alookup (l.foldl (passStep now ok (fun _ => false) pushUser) acc).2 k =
        alookup acc.2 k := by
  induction l with
  | nil => intro acc; rfl
  | cons hd t ih =>
    intro acc
    simp only [List.foldl_cons]
    rw [ih (fun kv hkv => h kv (List.mem_cons_of_mem _ hkv))]
    have hh := h hd (List.mem_cons_self _ _)
    unfold passStep pushUser
    by_cases h2 : ok hd.1 <;> simp [h2, alookup_aset_ne _ _ _ _ hh]

/-- In a well-formed users document (unique keys, each record's
`username` equal to its key) the users pass lands every unsynced entry
whose push succeeds in the primary store under its own key. -/
theorem usersFold_db (now : Nat) (ok : String → Bool)
    (l : List (String × UserRec)) (k : String) (r : UserRec)
    (hok : ok k = true) :
    ∀ acc : List (String × Nat) × List (String × UserRec),
      (l.map Prod.fst).Nodup → (∀ kv ∈ l, kv.2.username = kv.1) → (k, r) ∈ l →
      alookup (l.foldl (passStep now ok (fun _ => false) pushUser) acc).2 k = some r := by
  induction l with
  | nil => intro acc _ _ hmem; cases hmem
  | cons hd t ih =>
    intro acc hnodup hname hmem
    rcases List.mem_cons.mp hmem with heq | hmem'
    · subst heq
      simp only [List.foldl_cons]
      have hknot : k ∉ t.map Prod.fst := by
        have h' : (k :: t.map Prod.fst).Nodup := by simpa using hnodup
        exact (List.nodup_cons.mp h').1
      have hpres : ∀ kv ∈ t, kv.2.username ≠ k := by
        intro kv hkv
        rw [hname kv (List.mem_cons_of_mem _ hkv)]
        intro hEq
        exact hknot (hEq ▸ List.mem_map.mpr ⟨kv, hkv, rfl⟩)
      rw [usersFold_db_preserve now ok t k hpres]
      have hu : r.username = k := hname (k, r) (List.mem_cons_self _ _)
      unfold passStep pushUser
      simp [hok, hu, alookup_aset_self]
    · simp only [List.foldl_cons]
      have hn : (t.map Prod.fst).Nodup := by
        have h' : (hd.1 :: t.map Prod.fst).Nodup := by simpa using hnodup
        exact (List.nodup_cons.mp h').2
      exact ih _ hn (fun kv hkv => hname kv (List.mem_cons_of_mem _ hkv)) hmem'

/-- `runPass` form of `usersFold_db`. -/
theorem runPass_users_db (now : Nat) (ok : String → Bool)
    (store : List (String × UserRec)) (synced : List (String × Nat))
    (db : List (String × UserRec)) (k : String) (r : UserRec)
    (hnodup : (store.map Prod.fst).Nodup)
    (hname : ∀ kv ∈ store, kv.2.username = kv.1)
    (hmem : (k, r) ∈ store) (hunsynced : alookup synced k = none)
    (hok : ok k = true) :
    alookup (runPass now ok (fun _ => false) pushUser store synced db).2 k = some r := by
  unfold runPass
  apply usersFold_db now ok _ k r hok (synced, db)
  · exact List.Nodup.sublist ((List.filter_sublist store).map Prod.fst) hnodup
  · exact fun kv hkv => hname kv (List.mem_filter.mp hkv).1
  · exact List.mem_filter.mpr ⟨hmem, by simp [hunsynced]⟩

/-! ## Claims about the entity managers -/

/-- C3: when the primary store is available and holds a record for the
key, `get_user` returns that record even if `users.json` holds different
stale values; when the primary store is unavailable or has no record,
`get_user` answers from `users.json`. -/
theorem get_user_precedence (s : SysState) (username : String) :
    (∀ u, s.dbAvailable = true → alookup s.dbUsers username = some u →
      get_user s username = some u) ∧
    (s.dbAvailable = false ∨ alookup s.dbUsers username = none →
      get_user s username = alookup s.jsonUsers username) := by
  constructor
  · intro u hav hdb
    simp [get_user, hav, hdb]
  · rintro (hav | hdb)
    · simp [get_user, hav]
    · by_cases hav : s.dbAvailable = true
      · simp [get_user, hav, hdb]
      · simp [get_user, hav]

/-- Witness for C3: primary holds digest `h1`, the secondary holds a
stale `h2`, and `get_user` answers `h1`. -/
theorem get_user_precedence_witness :
    get_user precedenceState "alice" = some ⟨"alice", "a@x", "h1"⟩ ∧
      alookup precedenceState.jsonUsers "alice" = some ⟨"alice", "a@x", "h2"⟩ :=
  ⟨(get_user_precedence precedenceState "alice").1 ⟨"alice", "a@x", "h1"⟩ rfl rfl, rfl⟩

/-- C10, counterexample: with digest function `H:`-prefixing, the state
with no user and the state where `alice` exists with a different
password produce the *same* result `(false, none)` from
`validate_user_case_insensitive`, so the returned pair does not
distinguish "unknown user" from "wrong password". -/
theorem validate_ci_counterexample :
    validate_user_case_insensitive (fun p => "H:" ++ p) ciUnknownState "alice" "pw2" =
        validate_user_case_insensitive (fun p => "H:" ++ p) ciWrongPwState "alice" "pw2" ∧
      get_user_case_insensitive ciUnknownState "alice" = none ∧
      get_user_case_insensitive ciWrongPwState "alice" = some ⟨"Alice", "a@x", "H:pw1"⟩ ∧
      ("H:pw1" : String) ≠ "H:" ++ "pw2" := by
  refine ⟨?_, ?_, ?_, ?_⟩ <;> decide

/-- C10, amended: `validate_user_case_insensitive` returns the canonical
stored username only on success; both the unknown-user case and the
wrong-password case return `(false, none)`, so the pair alone cannot
distinguish them. -/
theorem validate_ci_canonical (hash : String → String) (s : SysState)
    (username password : String) :
    (get_user_case_insensitive s username = none →
      validate_user_case_insensitive hash s username password = (false, none)) ∧
    (∀ u, get_user_case_insensitive s username = some u → u.password ≠ hash password →
      validate_user_case_insensitive hash s username password = (false, none)) ∧
    (∀ u, get_user_case_insensitive s username = some u → u.password = hash password →
      validate_user_case_insensitive hash s username password = (true, some u.username)) := by
  refine ⟨?_, ?_, ?_⟩
  · intro h
    simp [validate_user_case_insensitive, h]
  · intro u h hne
    simp [validate_user_case_insensitive, h, hne]
  · intro u h he
    simp [validate_user_case_insensitive, h, he]

/-- Witness for the amended C10 at concrete states: unknown user and
wrong password coincide, success returns the stored casing. -/
theorem validate_ci_canonical_witness :
    validate_user_case_insensitive (fun p => "H:" ++ p) ciUnknownState "alice" "pw2" =
        (false, none) ∧
      validate_user_case_insensitive (fun p => "H:" ++ p) ciWrongPwState "alice" "pw2" =
        (false, none) ∧
      validate_user_case_insensitive (fun p => "H:" ++ p) ciWrongPwState "alice" "pw1" =
        (true, some "Alice") := by
  refine ⟨?_, ?_, ?_⟩
  · exact (validate_ci_canonical (fun p => "H:" ++ p) ciUnknownState "alice" "pw2").1
      (by decide)
  · exact (validate_ci_canonical (fun p => "H:" ++ p) ciWrongPwState "alice" "pw2").2.1
      ⟨"Alice", "a@x", "H:pw1"⟩ (by decide) (by decide)
  · exact (validate_ci_canonical (fun p => "H:" ++ p) ciWrongPwState "alice" "pw1").2.2
      ⟨"Alice", "a@x", "H:pw1"⟩ (by decide) (by decide)

/-- C5, counterexample: offline, `carol`'s verification record has
`verified = true` and token `tok`, yet `verify_email` with that very
token returns `false` — the already-verified state is rejected, not
short-circuited to success. -/
theorem verify_email_idempotent_counterexample :
    (alookup verifiedJsonState.jsonVerif "carol").map VerifRec.verified = some true ∧
      (verify_email 0 verifiedJsonState "carol" "tok").1 = false := by
  constructor <;> decide

/-- C5, amended: on the JSON-fallback path an already-verified record
makes `verify_email` return `false` for every token; on the database
path the `verified` flag is never consulted, so a matching unexpired row
verifies again (and any non-matching token fails there by the row
lookup). -/
theorem verify_email_verified_behavior (now : Nat) (s : SysState)
    (username token : String) :
    (∀ td, s.dbAvailable = false → alookup s.jsonVerif username = some td →
      td.verified = true → (verify_email now s username token).1 = false) ∧
    (∀ row, s.dbAvailable = true → getVerifTokenFromDb now s.dbVerif token = some row →
      row.username = username → (verify_email now s username token).1 = true) := by
  constructor
  · intro td hav h hv
    simp [verify_email, hav, h, hv]
  · intro row hav h hu
    simp [verify_email, hav, h, hu]

/-- Witness for the amended C5 at concrete states. -/
theorem verify_email_verified_behavior_witness :
    (verify_email 0 verifiedJsonState "carol" "tok").1 = false ∧
      (verify_email 0 verifiedDbState "carol" "tok").1 = true := by
  constructor
  · exact (verify_email_verified_behavior 0 verifiedJsonState "carol" "tok").1
      ⟨"tok", 1000, true, "c@x"⟩ rfl rfl rfl
  · exact (verify_email_verified_behavior 0 verifiedDbState "carol" "tok").2
      ⟨"carol", "c@x", "tok", 1000, true⟩ rfl (by decide) rfl

/-- C9, counterexample: offline, a reset token that is already expired
is *deleted* from `reset_tokens.json` by `validate_reset_token` — the
validation call mutates the secondary store. -/
theorem validate_reset_readonly_counterexample :
    (validate_reset_token 100 expiredResetState "tok").1 = none ∧
      (validate_reset_token 100 expiredResetState "tok").2.jsonReset = [] ∧
      expiredResetState.jsonReset ≠ [] := by
  refine ⟨?_, ?_, ?_⟩ <;> decide

/-- C9, amended: `validate_reset_token` leaves the state unchanged in
every case except one — on the JSON-fallback path an expired entry for
the requested token is removed from `reset_tokens.json`. -/
theorem validate_reset_token_mutation (now : Nat) (s : SysState) (token : String) :
    (validate_reset_token now s token).2 = s ∨
      (s.dbAvailable = false ∧ ∃ td, alookup s.jsonReset token = some td ∧
        td.expiry ≤ now ∧
        (validate_reset_token now s token).2 =
          { s with jsonReset := aremove s.jsonReset token }) := by
  by_cases hav : s.dbAvailable = true
  · left
    unfold validate_reset_token
    simp only [hav, if_true]
    split <;> rfl
  · cases h : alookup s.jsonReset token with
    | none =>
        left
        simp [validate_reset_token, hav, h]
    | some td =>
        by_cases hexp : now < td.expiry
        · left
          simp [validate_reset_token, hav, h, hexp]
        · right
          refine ⟨by simpa using hav, td, ?_, ?_, ?_⟩
          · rfl
          · exact Nat.le_of_not_lt hexp
          · simp [validate_reset_token, hav, h, hexp]

/-- C7: reset tokens are single-use — whenever
`reset_password(token, new_password)` reports success, a later
`validate_reset_token(token)` (at any time) answers `None`. -/
theorem reset_token_single_use (hash : String → String) (now now2 : Nat)
    (s : SysState) (token newPassword : String)
    (h : (reset_password hash now s token newPassword).1 = true) :
    (validate_reset_token now2
      (reset_password hash now s token newPassword).2 token).1 = none := by
  by_cases hav : s.dbAvailable = true
  · cases hdb : getResetTokenFromDb now s.dbReset token with
    | none =>
        exfalso
        simp [reset_password, validate_reset_token, hav, hdb] at h
    | some row =>
        have hfind : getResetTokenFromDb now2
            (s.dbReset.filter (fun r => !decide (r.token = token))) token = none := by
          unfold getResetTokenFromDb
          apply List.find?_eq_none.mpr
          intro x hx
          have hxne : x.token ≠ token := by
            have := (List.mem_filter.mp hx).2
            simpa using this
          simp [hxne]
        simp [reset_password, validate_reset_token, update_user_password,
          deleteResetToken, hav, hdb, hfind]
  · cases hjs : alookup s.jsonReset token with
    | none =>
        exfalso
        simp [reset_password, validate_reset_token, hav, hjs] at h
    | some td =>
        by_cases hexp : now < td.expiry
        · cases hus : alookup s.jsonUsers td.username with
          | none =>
              exfalso
              simp [reset_password, validate_reset_token, update_user_password,
                hav, hjs, hexp, hus] at h
          | some u =>
              simp [reset_password, validate_reset_token, update_user_password,
                deleteResetToken, hav, hjs, hexp, hus, alookup_aremove_self]
        · exfalso
          simp [reset_password, validate_reset_token, hav, hjs, hexp] at h

/-- Witness for C7: offline, `dave`'s live token is consumed by a
successful reset and no longer validates. -/
theorem reset_token_single_use_witness :
    (reset_password (fun p => "H:" ++ p) 0 resetDaveState "tok" "npw").1 = true ∧
      (validate_reset_token 7
        (reset_password (fun p => "H:" ++ p) 0 resetDaveState "tok" "npw").2 "tok").1 = none :=
  ⟨by decide,
    reset_token_single_use (fun p => "H:" ++ p) 0 7 resetDaveState "tok" "npw" (by decide)⟩

/-! ### Session lemmas for C8 -/

/-- Specification of `find?` over a decidable propositional filter. -/
theorem find_decide_spec {α : Type} (p : α → Prop) [DecidablePred p] :
    ∀ (l : List α) (a : α), l.find? (fun x => decide (p x)) = some a → a ∈ l ∧ p a := by
  intro l
  induction l with
  | nil =>
      intro a h
      cases h
  | cons hd t ih =>
      intro a h
      by_cases hp : p hd
      · have ha : hd = a := by simpa [List.find?_cons, hp] using h
        exact ⟨by simp [← ha], ha ▸ hp⟩
      · have h' : t.find? (fun x => decide (p x)) = some a := by
          simpa [List.find?_cons, hp] using h
        exact ⟨List.mem_cons_of_mem _ (ih a h').1, (ih a h').2⟩

theorem upsertSessionRow_eq_map (rows : List SessRow) (r : SessRow)
    (h : ∃ x ∈ rows, x.token = r.token) :
    upsertSessionRow rows r = bumpSessions rows r.token r.expiry := by
  unfold upsertSessionRow bumpSessions
  rw [if_pos]
  obtain ⟨x, hx, hxt⟩ := h
  exact List.any_eq_true.mpr ⟨x, hx, by simp [hxt]⟩

/-- After rewriting every row carrying `tk` to expiry `e`, the lookup by
`(u, tk)` finds a row, and that row has expiry `e`. -/
theorem find_session_after_update (u tk : String) (e : Nat) :
    ∀ rows : List SessRow, (∃ row ∈ rows, row.username = u ∧ row.token = tk) →
    ∃ r', (bumpSessions rows tk e).find?
        (fun r => decide (r.username = u ∧ r.token = tk)) = some r' ∧
      r'.username = u ∧ r'.token = tk ∧ r'.expiry = e := by
  unfold bumpSessions
  intro rows
  induction rows with
  | nil =>
      rintro ⟨row, hmem, _⟩
      cases hmem
  | cons hd t ih =>
      rintro ⟨row, hmem, hu, ht⟩
      by_cases hp : hd.username = u ∧ hd.token = tk
      · refine ⟨{ hd with expiry := e }, ?_, hp.1, hp.2, rfl⟩
        simp [List.find?_cons, hp.2, hp.1]
      · have hrow : row ∈ t := by
          rcases List.mem_cons.mp hmem with he | ht'
          · exact absurd ⟨he ▸ hu, he ▸ ht⟩ hp
          · exact ht'
        obtain ⟨r', hfind, h1, h2, h3⟩ := ih ⟨row, hrow, hu, ht⟩
        refine ⟨r', ?_, h1, h2, h3⟩
        have hpa : (decide ((if hd.token = tk then { hd with expiry := e } else hd).username = u ∧
            (if hd.token = tk then { hd with expiry := e } else hd).token = tk)) = false := by
          by_cases hht : hd.token = tk
          · have hnu : ¬ hd.username = u := fun hA => hp ⟨hA, hht⟩
            simp [hht, hnu]
          · simp [hht, hp]
        simp only [List.map_cons, List.find?_cons, hpa, cond_false]
        exact hfind

theorem storedSessionExpiry_db (s : SysState) (u tk : String)
    (hav : s.dbAvailable = true) :
    storedSessionExpiry s u tk =
      (s.dbSessions.find? (fun r => decide (r.username = u ∧ r.token = tk))).map
        (fun r => r.expiry) := by
  unfold storedSessionExpiry
  split
  · rfl
  · simp_all

theorem storedSessionExpiry_json (s : SysState) (u tk : String)
    (hav : s.dbAvailable = false) :
    storedSessionExpiry s u tk =
      match alookup s.jsonSessions u with
      | some sd => if sd.token = tk then some sd.expiry else none
      | none => none := by
  unfold storedSessionExpiry
  split
  · simp_all
  · rfl

/-- C8: `validate_session` slides the window — a successful validation
rewrites the stored expiry to `now + 3600` in whichever store answered,
so validating again 10 seconds later succeeds and leaves an expiry at
least 9 seconds past the first one. -/
theorem validate_session_sliding (s : SysState) (t : Nat) (username token : String)
    (h : (validate_session t s username token).1 = true) :
    (validate_session (t + 10)
        (validate_session t s username token).2 username token).1 = true ∧
      storedSessionExpiry (validate_session t s username token).2 username token =
        some (t + 3600) ∧
      storedSessionExpiry
          (validate_session (t + 10)
            (validate_session t s username token).2 username token).2 username token =
        some (t + 3610) ∧
      t + 3600 + 9 ≤ t + 3610 := by
  by_cases hav : s.dbAvailable = true
  · cases hg : getSessionFromDb t s.dbSessions username token with
    | none =>
        exfalso
        simp [validate_session, hav, hg] at h
    | some row =>
        have hg1 : List.find?
            (fun r => decide (r.username = username ∧ r.token = token ∧ t < r.expiry))
            s.dbSessions = some row := hg
        obtain ⟨hrmem, hru, hrt, -⟩ :=
          find_decide_spec (fun r => r.username = username ∧ r.token = token ∧ t < r.expiry)
            s.dbSessions row hg1
        have hmap1 : upsertSessionRow s.dbSessions ⟨username, token, t + 3600⟩ =
            bumpSessions s.dbSessions token (t + 3600) :=
          upsertSessionRow_eq_map _ _ ⟨row, hrmem, hrt⟩
        obtain ⟨r1, hfind1, hr1u, hr1t, hr1e⟩ :=
          find_session_after_update username token (t + 3600) s.dbSessions
            ⟨row, hrmem, hru, hrt⟩
        have hs1 : (validate_session t s username token).2 =
            { s with dbSessions := bumpSessions s.dbSessions token (t + 3600) } := by
          simp [validate_session, hav, hg, hmap1]
        have hmem1 : r1 ∈ bumpSessions s.dbSessions token (t + 3600) :=
          (find_decide_spec (fun r => r.username = username ∧ r.token = token) _ r1 hfind1).1
        have hisSome2 : (getSessionFromDb (t + 10)
            (bumpSessions s.dbSessions token (t + 3600)) username token).isSome := by
          unfold getSessionFromDb
          refine List.find?_isSome.mpr ⟨r1, hmem1, ?_⟩
          have h10 : t + 10 < r1.expiry := by omega
          simp [hr1u, hr1t, h10]
        cases hg2 : getSessionFromDb (t + 10)
            (bumpSessions s.dbSessions token (t + 3600)) username token with
        | none =>
            rw [hg2] at hisSome2
            simp at hisSome2
        | some row2 =>
            have hg2' : List.find?
                (fun r => decide (r.username = username ∧ r.token = token ∧ t + 10 < r.expiry))
                (bumpSessions s.dbSessions token (t + 3600)) = some row2 := hg2
            obtain ⟨hmem2, hrow2p⟩ :=
              find_decide_spec
                (fun r => r.username = username ∧ r.token = token ∧ t + 10 < r.expiry)
                (bumpSessions s.dbSessions token (t + 3600)) row2 hg2'
            have hmap2 : upsertSessionRow (bumpSessions s.dbSessions token (t + 3600))
                ⟨username, token, t + 10 + 3600⟩ =
                bumpSessions (bumpSessions s.dbSessions token (t + 3600)) token
                  (t + 10 + 3600) :=
              upsertSessionRow_eq_map _ _ ⟨row2, hmem2, hrow2p.2.1⟩
            obtain ⟨r2, hfind2, hr2u, hr2t, hr2e⟩ :=
              find_session_after_update username token (t + 10 + 3600)
                (bumpSessions s.dbSessions token (t + 3600)) ⟨r1, hmem1, hr1u, hr1t⟩
            have hs2 : (validate_session (t + 10)
                (validate_session t s username token).2 username token) =
                (true, { s with dbSessions := bumpSessions (bumpSessions s.dbSessions token (t + 3600)) token (t + 10 + 3600) }) := by
              rw [hs1]
              simp [validate_session, hav, hg2, hmap2]
            refine ⟨by rw [hs2], ?_, ?_, by omega⟩
            · rw [hs1, storedSessionExpiry_db { s with dbSessions := bumpSessions s.dbSessions token (t + 3600) } username token hav]
              rw [show ({ s with dbSessions := bumpSessions s.dbSessions token (t + 3600) } : SysState).dbSessions = bumpSessions s.dbSessions token (t + 3600) from rfl]
              rw [hfind1]
              simp [hr1e]
            · rw [hs2]
              rw [storedSessionExpiry_db { s with dbSessions := bumpSessions (bumpSessions s.dbSessions token (t + 3600)) token (t + 10 + 3600) } username token hav]
              rw [show ({ s with dbSessions := bumpSessions (bumpSessions s.dbSessions token (t + 3600)) token (t + 10 + 3600) } : SysState).dbSessions = bumpSessions (bumpSessions s.dbSessions token (t + 3600)) token (t + 10 + 3600) from rfl]
              rw [hfind2]
              have he : t + 10 + 3600 = t + 3610 := by omega
              simp [hr2e, he]
  · cases hjs : alookup s.jsonSessions username with
    | none =>
        exfalso
        simp [validate_session, hav, hjs] at h
    | some sd =>
        obtain ⟨sdt, sde⟩ := sd
        by_cases hc : sdt = token ∧ t < sde
        · obtain ⟨hcT, hcE⟩ := hc
          subst hcT
          have hs1 : (validate_session t s username sdt).2 =
              { s with jsonSessions := aset s.jsonSessions username ⟨sdt, t + 3600⟩ } := by
            simp [validate_session, hav, hjs, hcE]
          have ha1 : alookup (aset s.jsonSessions username ⟨sdt, t + 3600⟩) username =
              some ⟨sdt, t + 3600⟩ := alookup_aset_self _ _ _
          have hB : t + 10 < t + 3600 := by omega
          have hs2 : (validate_session (t + 10)
              (validate_session t s username sdt).2 username sdt) =
              (true, { s with jsonSessions := aset (aset s.jsonSessions username ⟨sdt, t + 3600⟩) username ⟨sdt, t + 10 + 3600⟩ }) := by
            rw [hs1]
            simp [validate_session, hav, ha1, hB]
          have ha2 : alookup (aset (aset s.jsonSessions username ⟨sdt, t + 3600⟩)
              username ⟨sdt, t + 10 + 3600⟩) username =
              some ⟨sdt, t + 10 + 3600⟩ := alookup_aset_self _ _ _
          have he : t + 10 + 3600 = t + 3610 := by omega
          refine ⟨by rw [hs2], ?_, ?_, by omega⟩
          · rw [hs1, storedSessionExpiry_json { s with jsonSessions := aset s.jsonSessions username ⟨sdt, t + 3600⟩ } username sdt (by simpa using hav)]
            rw [show ({ s with jsonSessions := aset s.jsonSessions username ⟨sdt, t + 3600⟩ } : SysState).jsonSessions = aset s.jsonSessions username ⟨sdt, t + 3600⟩ from rfl]
            rw [ha1]
            simp
          · rw [hs2, storedSessionExpiry_json { s with jsonSessions := aset (aset s.jsonSessions username ⟨sdt, t + 3600⟩) username ⟨sdt, t + 10 + 3600⟩ } username sdt (by simpa using hav)]
            rw [show ({ s with jsonSessions := aset (aset s.jsonSessions username ⟨sdt, t + 3600⟩) username ⟨sdt, t + 10 + 3600⟩ } : SysState).jsonSessions = aset (aset s.jsonSessions username ⟨sdt, t + 3600⟩) username ⟨sdt, t + 10 + 3600⟩ from rfl]
            rw [ha2]
            simp [he]
        · exfalso
          simp [validate_session, hav, hjs, hc] at h


/-- Witness for C8 at a concrete offline session store. -/
theorem validate_session_sliding_witness :
    (validate_session 10 (validate_session 0 sessionState "u" "tk").2 "u" "tk").1 = true ∧
      storedSessionExpiry (validate_session 0 sessionState "u" "tk").2 "u" "tk" =
        some 3600 ∧
      storedSessionExpiry
          (validate_session 10 (validate_session 0 sessionState "u" "tk").2 "u" "tk").2
          "u" "tk" = some 3610 ∧
      (3600 : Nat) + 9 ≤ 3610 := by
  have hw := validate_session_sliding sessionState 0 "u" "tk" (by decide)
  simpa using hw

/-! ## Claims about the sync coordinator -/

theorem syncAllData_run (now : Nat) (ok : String → Bool) (s : SysState)
    (hprog : s.syncInProgress = false) (hav : s.dbAvailable = true) :
    syncAllData now ok s =
      (true, { syncAllCore now ok s with lastSync := now, syncInProgress := false }) := by
  simp [syncAllData, hprog, hav]

/-- C6, counterexample: a pass over a store holding one unsynced user
whose push fails (the oracle denies every write) still returns `true`,
although the push failed — the entry stays out of the primary store and
out of the ledger. -/
theorem sync_success_counterexample :
    (syncAllData 5 (fun _ => false) unsyncedBobState).1 = true ∧
      alookup (syncAllData 5 (fun _ => false) unsyncedBobState).2.syncedUsers "bob" = none ∧
      alookup (syncAllData 5 (fun _ => false) unsyncedBobState).2.dbUsers "bob" = none ∧
      alookup unsyncedBobState.jsonUsers "bob" ≠ none := by
  refine ⟨?_, ?_, ?_, ?_⟩ <;> decide

/-- C6, amended: when the database is available and no pass is running,
`sync_all_data` attempts all four entity types and always reports
success (only an entity-level exception, e.g. an unreadable store file,
could make it fail — individual push failures cannot): a key whose push
the backend refuses is left unsynced, while entries of the other entity
types are still processed and marked in that same pass. -/
theorem sync_all_result (now : Nat) (ok : String → Bool) (s : SysState) (k : String)
    (hprog : s.syncInProgress = false) (hav : s.dbAvailable = true) :
    (syncAllData now ok s).1 = true ∧
      (syncAllData now ok s).2.lastSync = now ∧
      (ok k = false →
        alookup (syncAllData now ok s).2.syncedUsers k = alookup s.syncedUsers k) ∧
      (∀ sd, ok k = true → alookup s.jsonSessions k = some sd →
        alookup s.syncedSessions k = none →
        alookup (syncAllData now ok s).2.syncedSessions k = some now) := by
  rw [syncAllData_run now ok s hprog hav]
  refine ⟨rfl, rfl, ?_, ?_⟩
  · intro hk
    show alookup (runPass now ok (fun _ => false) pushUser
      s.jsonUsers s.syncedUsers s.dbUsers).1 k = alookup s.syncedUsers k
    exact runPass_untouched now ok (fun _ => false) pushUser
      s.jsonUsers s.syncedUsers s.dbUsers k hk (fun r _ => rfl)
  · intro sd hk hsd hns
    show alookup (runPass now ok (fun sd => decide (sd.expiry ≤ now))
      (fun db k sd => upsertSessionRow db ⟨k, sd.token, sd.expiry⟩)
      s.jsonSessions s.syncedSessions s.dbSessions).1 k = some now
    exact runPass_mark now ok _ _ s.jsonSessions s.syncedSessions s.dbSessions k sd
      (alookup_mem hsd) hns (Or.inr hk)

/-- Witness for the amended C6: the user push fails, the session push
succeeds, the pass reports success. -/
theorem sync_all_result_witness :
    (syncAllData 7 (fun k => k == "sess") mixedSyncState).1 = true ∧
      (syncAllData 7 (fun k => k == "sess") mixedSyncState).2.lastSync = 7 ∧
      alookup (syncAllData 7 (fun k => k == "sess") mixedSyncState).2.syncedUsers "bob" =
        alookup mixedSyncState.syncedUsers "bob" ∧
      alookup (syncAllData 7 (fun k => k == "sess") mixedSyncState).2.syncedSessions "sess" =
        some 7 := by
  have h1 := sync_all_result 7 (fun k => k == "sess") mixedSyncState "bob" rfl rfl
  have h2 := sync_all_result 7 (fun k => k == "sess") mixedSyncState "sess" rfl rfl
  exact ⟨h1.1, h1.2.1, h1.2.2.1 (by decide),
    h2.2.2.2 ⟨"tks", 100⟩ (by decide) (by decide) (by decide)⟩

/-- C4: a full pass re-run immediately on its own output, with the same
backend outcomes and no secondary-store writes in between, returns the
very same state — nothing already in the ledger is pushed again and no
ledger entry is added or duplicated. -/
theorem sync_all_idempotent (now : Nat) (ok : String → Bool) (s : SysState)
    (hprog : s.syncInProgress = false) (hav : s.dbAvailable = true) :
    syncAllData now ok (syncAllData now ok s).2 = (true, (syncAllData now ok s).2) := by
  rw [syncAllData_run now ok s hprog hav]
  rw [syncAllData_run now ok
    { syncAllCore now ok s with lastSync := now, syncInProgress := false } rfl hav]
  refine congrArg (Prod.mk true) ?_
  ext1
  · rfl
  · exact congrArg Prod.snd (runPass_idem now ok (fun _ => false) pushUser
      s.jsonUsers s.syncedUsers s.dbUsers)
  · exact congrArg Prod.snd (runPass_idem now ok (fun sd => decide (sd.expiry ≤ now))
      (fun db k sd => upsertSessionRow db ⟨k, sd.token, sd.expiry⟩)
      s.jsonSessions s.syncedSessions s.dbSessions)
  · exact congrArg Prod.snd (runPass_idem now ok (fun td => decide (td.expiry ≤ now))
      (fun db k td => upsertVerifRow db ⟨k, td.email, td.token, td.expiry, td.verified⟩)
      s.jsonVerif s.syncedVerif s.dbVerif)
  · exact congrArg Prod.snd (runPass_idem now ok (fun td => decide (td.expiry ≤ now))
      (fun db k td => upsertResetRow db ⟨td.username, td.email, k, td.expiry⟩)
      s.jsonReset s.syncedReset s.dbReset)
  · rfl
  · rfl
  · rfl
  · rfl
  · exact congrArg Prod.fst (runPass_idem now ok (fun _ => false) pushUser
      s.jsonUsers s.syncedUsers s.dbUsers)
  · exact congrArg Prod.fst (runPass_idem now ok (fun sd => decide (sd.expiry ≤ now))
      (fun db k sd => upsertSessionRow db ⟨k, sd.token, sd.expiry⟩)
      s.jsonSessions s.syncedSessions s.dbSessions)
  · exact congrArg Prod.fst (runPass_idem now ok (fun td => decide (td.expiry ≤ now))
      (fun db k td => upsertVerifRow db ⟨k, td.email, td.token, td.expiry, td.verified⟩)
      s.jsonVerif s.syncedVerif s.dbVerif)
  · exact congrArg Prod.fst (runPass_idem now ok (fun td => decide (td.expiry ≤ now))
      (fun db k td => upsertResetRow db ⟨td.username, td.email, k, td.expiry⟩)
      s.jsonReset s.syncedReset s.dbReset)
  · rfl
  · rfl
  · rfl

/-- Witness for C4 at a concrete online state with one unsynced user. -/
theorem sync_all_idempotent_witness :
    syncAllData 5 (fun _ => true) (syncAllData 5 (fun _ => true) unsyncedBobState).2 =
      (true, (syncAllData 5 (fun _ => true) unsyncedBobState).2) :=
  sync_all_idempotent 5 (fun _ => true) unsyncedBobState rfl rfl

theorem get_user_db_hit (s : SysState) (u : String) (r : UserRec)
    (hav : s.dbAvailable = true) (h : alookup s.dbUsers u = some r) :
    get_user s u = some r := by
  simp [get_user, hav, h]

/-- C1: saving `bob` while the primary store is down writes him only to
`users.json`; once the primary store is up again, the next
`check_and_sync` detects the offline-to-online transition and pushes the
record, after which `get` answers from the primary store with that
record and the ledger holds a `synced_users` entry for `bob`.
Well-formedness of `users.json` (unique keys, key = record username) and
a backend that accepts the push are assumed. -/
theorem offline_save_then_sync (hash : String → String) (n1 n2 : Nat)
    (ok : String → Bool) (dbOk : Bool) (s0 : SysState)
    (b1 b3 : Bool) (s1 s3 : SysState)
    (hav0 : s0.dbAvailable = false)
    (hprog : s0.syncInProgress = false)
    (hns : alookup s0.syncedUsers "bob" = none)
    (hnodup : (s0.jsonUsers.map Prod.fst).Nodup)
    (hname : ∀ kv ∈ s0.jsonUsers, kv.2.username = kv.1)
    (hok : ok "bob" = true)
    (h1 : save_user hash n1 ok dbOk s0 "bob" "bob@x.com" "pw123456" = (b1, s1))
    (h2 : checkAndSync n2 ok { s1 with dbAvailable := true } = (b3, s3)) :
    b1 = true ∧
      alookup s1.jsonUsers "bob" = some ⟨"bob", "bob@x.com", hash "pw123456"⟩ ∧
      s1.dbUsers = s0.dbUsers ∧
      b3 = true ∧
      alookup s3.dbUsers "bob" = some ⟨"bob", "bob@x.com", hash "pw123456"⟩ ∧
      get_user s3 "bob" = some ⟨"bob", "bob@x.com", hash "pw123456"⟩ ∧
      alookup s3.syncedUsers "bob" = some n2 := by
  have hsave : save_user hash n1 ok dbOk s0 "bob" "bob@x.com" "pw123456" =
      (true, { s0 with lastDbStatus := false, jsonUsers := aset s0.jsonUsers "bob" ⟨"bob", "bob@x.com", hash "pw123456"⟩ }) := by
    simp [save_user, checkAndSync, hav0]
  rw [hsave] at h1
  injection h1 with hb1 hs1
  subst hs1
  subst hb1
  refine ⟨rfl, alookup_aset_self _ _ _, rfl, ?_⟩
  have hcs : checkAndSync n2 ok
      { s0 with lastDbStatus := false, jsonUsers := aset s0.jsonUsers "bob" ⟨"bob", "bob@x.com", hash "pw123456"⟩, dbAvailable := true } =
      syncAllData n2 ok
        { s0 with lastDbStatus := false, jsonUsers := aset s0.jsonUsers "bob" ⟨"bob", "bob@x.com", hash "pw123456"⟩, dbAvailable := true } := rfl
  rw [hcs, syncAllData_run n2 ok { s0 with lastDbStatus := false, jsonUsers := aset s0.jsonUsers "bob" ⟨"bob", "bob@x.com", hash "pw123456"⟩, dbAvailable := true } hprog rfl] at h2
  injection h2 with hb3 hs3
  subst hs3
  subst hb3
  have hnodup2 : ((aset s0.jsonUsers "bob"
      ⟨"bob", "bob@x.com", hash "pw123456"⟩).map Prod.fst).Nodup :=
    nodup_keys_aset hnodup
  have hname2 : ∀ kv ∈ aset s0.jsonUsers "bob" ⟨"bob", "bob@x.com", hash "pw123456"⟩,
      kv.2.username = kv.1 := by
    intro kv hkv
    rcases mem_aset hkv with hmem | heq
    · exact hname kv hmem
    · rw [heq]
  have hmem : ("bob", (⟨"bob", "bob@x.com", hash "pw123456"⟩ : UserRec)) ∈
      aset s0.jsonUsers "bob" ⟨"bob", "bob@x.com", hash "pw123456"⟩ :=
    alookup_mem (alookup_aset_self _ _ _)
  have hdbu : alookup (runPass n2 ok (fun _ => false) pushUser
      (aset s0.jsonUsers "bob" ⟨"bob", "bob@x.com", hash "pw123456"⟩)
      s0.syncedUsers s0.dbUsers).2 "bob" =
      some ⟨"bob", "bob@x.com", hash "pw123456"⟩ :=
    runPass_users_db n2 ok _ s0.syncedUsers s0.dbUsers "bob" _ hnodup2 hname2 hmem hns hok
  have hmark : alookup (runPass n2 ok (fun _ => false) pushUser
      (aset s0.jsonUsers "bob" ⟨"bob", "bob@x.com", hash "pw123456"⟩)
      s0.syncedUsers s0.dbUsers).1 "bob" = some n2 :=
    runPass_mark n2 ok _ _ _ s0.syncedUsers s0.dbUsers "bob" _ hmem hns (Or.inr hok)
  refine ⟨rfl, hdbu, ?_, hmark⟩
  exact get_user_db_hit _ "bob" _ rfl hdbu

/-- Witness for C1: the whole scenario run from the empty offline state
with a concrete digest function and a backend that accepts pushes. -/
theorem offline_save_then_sync_witness :
    (save_user (fun p => "H:" ++ p) 1 (fun _ => true) false emptySys
        "bob" "bob@x.com" "pw123456").1 = true ∧
      alookup (save_user (fun p => "H:" ++ p) 1 (fun _ => true) false emptySys
        "bob" "bob@x.com" "pw123456").2.jsonUsers "bob" =
        some ⟨"bob", "bob@x.com", "H:pw123456"⟩ ∧
      (save_user (fun p => "H:" ++ p) 1 (fun _ => true) false emptySys
        "bob" "bob@x.com" "pw123456").2.dbUsers = emptySys.dbUsers ∧
      (checkAndSync 9 (fun _ => true)
        { (save_user (fun p => "H:" ++ p) 1 (fun _ => true) false emptySys
            "bob" "bob@x.com" "pw123456").2 with dbAvailable := true }).1 = true ∧
      alookup (checkAndSync 9 (fun _ => true)
        { (save_user (fun p => "H:" ++ p) 1 (fun _ => true) false emptySys
            "bob" "bob@x.com" "pw123456").2 with dbAvailable := true }).2.dbUsers "bob" =
        some ⟨"bob", "bob@x.com", "H:pw123456"⟩ ∧
      get_user (checkAndSync 9 (fun _ => true)
        { (save_user (fun p => "H:" ++ p) 1 (fun _ => true) false emptySys
            "bob" "bob@x.com" "pw123456").2 with dbAvailable := true }).2 "bob" =
        some ⟨"bob", "bob@x.com", "H:pw123456"⟩ ∧
      alookup (checkAndSync 9 (fun _ => true)
        { (save_user (fun p => "H:" ++ p) 1 (fun _ => true) false emptySys
            "bob" "bob@x.com" "pw123456").2 with dbAvailable := true }).2.syncedUsers "bob" =
        some 9 :=
  offline_save_then_sync (fun p => "H:" ++ p) 1 9 (fun _ => true) false emptySys
    _ _ _ _ rfl rfl rfl (by decide) (by intro kv hkv; cases hkv) rfl rfl rfl

end ZachApp
